import Mathlib

/-!
Verification of the VisionID face-recognition core against its specification.

The embedding models the Python sources:
* app/services/matcher.py   — cosine similarity, best-match scan, top-K;
* app/services/embedder.py  — embedding normalization and byte serialization;
* app/routes/recognize.py   — single-image and bulk recognition pipelines;
* app/routes/attendance.py  — attendance marking with its duplicate suppression.

Real vectors are lists of reals; numpy's Euclidean norm is Real.sqrt of the
sum of squares.  The pipelines' asyncio.gather collects task results in
submission order regardless of completion order, so a gather over a list of
faces denotes an order-preserving map; the attendance route's shared
processed_users set is threaded through the faces as explicit state in
submission order (one admissible completion schedule of the source).
-/

namespace VisionID

noncomputable section
open Classical

/-- Dot product of two vectors, as np.dot on 1-d arrays (matcher.py line 37). -/
def np_dot (a b : List ℝ) : ℝ := (List.zipWith (fun x y => x * y) a b).sum

/-- Sum of squares of the entries of a vector. -/
def sumSq (a : List ℝ) : ℝ := (a.map (fun x => x * x)).sum

/-- Euclidean norm, as np.linalg.norm (matcher.py lines 38-39, embedder.py line 80). -/
def linalg_norm (a : List ℝ) : ℝ := Real.sqrt (sumSq a)

/-- FaceMatcher's construction state: the configured similarity threshold
(matcher.py lines 16-23). -/
structure FaceMatcher where
  similarity_threshold : ℝ

/-- FaceMatcher.compute_similarity (matcher.py lines 25-45): cosine similarity,
0.0 when either vector has zero norm. -/
def compute_similarity (embedding1 embedding2 : List ℝ) : ℝ :=
  let dot_product := np_dot embedding1 embedding2
  let norm1 := linalg_norm embedding1
  let norm2 := linalg_norm embedding2
  if norm1 = 0 ∨ norm2 = 0 then 0 else dot_product / (norm1 * norm2)

/-- The scan loop of FaceMatcher.match_embedding (matcher.py lines 70-77):
state is the running best match and the running best score. -/
def matchLoop (query : List ℝ) :
    List (String × List ℝ) → Option (String × ℝ) → ℝ → Option (String × ℝ)
  | [], best_match, _ => best_match
  | (user_id, db_embedding) :: rest, best_match, best_score =>
    let similarity := compute_similarity query db_embedding
    if similarity > best_score then
      matchLoop query rest (some (user_id, similarity)) similarity
    else
      matchLoop query rest best_match best_score

/-- FaceMatcher.match_embedding (matcher.py lines 47-77): the running best score
is initialized to the threshold (the configured one when the argument is None),
the running best match to None. -/
def match_embedding (self : FaceMatcher) (query_embedding : List ℝ)
    (known_embeddings : List (String × List ℝ)) (threshold : Option ℝ) :
    Option (String × ℝ) :=
  matchLoop query_embedding known_embeddings none
    (threshold.getD self.similarity_threshold)

/-- FaceMatcher.get_top_matches (matcher.py lines 138-165): score the whole
gallery, sort by similarity descending (Python list.sort is stable; a stable
descending sort is mergeSort under the reversed comparison), keep the first
top_k entries. -/
def get_top_matches (query_embedding : List ℝ)
    (database_embeddings : List (String × List ℝ)) (top_k : Nat) :
    List (String × ℝ) :=
  let similarities :=
    database_embeddings.map (fun p => (p.1, compute_similarity query_embedding p.2))
  (similarities.mergeSort (fun a b => decide (b.2 ≤ a.2))).take top_k

/-- FaceEmbedder.normalize_embedding (embedder.py lines 70-83): divide by the
norm unless the norm is zero, in which case return the input unchanged. -/
def normalize_embedding (embedding : List ℝ) : List ℝ :=
  let norm := linalg_norm embedding
  if norm = 0 then embedding else embedding.map (fun x => x / norm)

end

/-! ### Byte serialization of embeddings (embedder.py lines 85-107)

A float32 is identified with its 32-bit pattern, a Nat below 2 ^ 32; the
serialization of ndarray.tobytes / np.frombuffer(dtype=np.float32) on a
little-endian platform is raw 4-byte little-endian words, no header. -/

/-- One 32-bit word as four little-endian bytes. -/
def word_to_le_bytes (w : Nat) : List Nat :=
  [w % 256, w / 256 % 256, w / 65536 % 256, w / 16777216 % 256]

/-- FaceEmbedder.embedding_to_bytes (embedder.py line 95): concatenation of the
little-endian 4-byte encodings of the word (bit pattern) of each float32. -/
def embedding_to_bytes : List Nat → List Nat
  | [] => []
  | w :: ws => word_to_le_bytes w ++ embedding_to_bytes ws

/-- FaceEmbedder.bytes_to_embedding (embedder.py line 107): reassemble
consecutive 4-byte little-endian groups into 32-bit words. -/
def bytes_to_embedding : List Nat → List Nat
  | b0 :: b1 :: b2 :: b3 :: rest =>
    (b0 + 256 * b1 + 65536 * b2 + 16777216 * b3) :: bytes_to_embedding rest
  | _ => []

/-! ### Route pipelines (recognize.py, attendance.py) -/

noncomputable section
open Classical

/-- A detected face as handed to the routes: the embedding the embedder
extracts for it (None when extraction fails), its bounding box and its
detection confidence. -/
structure Face where
  embedding : Option (List ℝ)
  bbox : List Int
  confidence : ℝ

/-- Per-face recognition result (recognize.py lines 54-60 and the dicts of the
bulk route). -/
structure FaceRecognition where
  user_id : Option String
  name : String
  confidence : ℝ
  similarity : ℝ
  bbox : List Int

/-- Response of the /recognize endpoint (recognize.py lines 63-68). -/
structure RecognitionResponse where
  success : Bool
  detected_faces : Nat
  recognitions : List FaceRecognition
  message : String

/-- The matcher singleton the routes build: FaceMatcher(similarity_threshold=0.6)
(recognize.py line 50, attendance.py line 38). -/
def routeMatcher : FaceMatcher := ⟨3 / 5⟩

/-- process_face of recognize_faces (recognize.py lines 124-182): match the
face's embedding against the gallery at explicit threshold 0.6; on a match
whose user exists, return its identity and similarity, otherwise Unknown. -/
def process_face (known_embeddings : List (String × List ℝ))
    (get_user : String → Option String) (face : Face) : FaceRecognition :=
  match face.embedding with
  | none => ⟨none, "Unknown", face.confidence, 0, face.bbox⟩
  | some embedding =>
    if 0 < known_embeddings.length then
      match match_embedding routeMatcher embedding known_embeddings (some (3 / 5)) with
      | some (user_id, similarity) =>
        match get_user user_id with
        | some nm => ⟨some user_id, nm, face.confidence, similarity, face.bbox⟩
        | none => ⟨none, "Unknown", face.confidence, 0, face.bbox⟩
      | none => ⟨none, "Unknown", face.confidence, 0, face.bbox⟩
    else ⟨none, "Unknown", face.confidence, 0, face.bbox⟩

/-- recognize_faces (recognize.py lines 71-202) after image decoding and face
detection: zero faces is a success with an empty list; otherwise
asyncio.gather over process_face, which yields one result per face in
submission order. -/
def recognize_faces (known_embeddings : List (String × List ℝ))
    (get_user : String → Option String) (detected_faces : List Face) :
    RecognitionResponse :=
  if detected_faces.length = 0 then
    ⟨true, 0, [], "No faces detected in the image"⟩
  else
    ⟨true, detected_faces.length,
      detected_faces.map (process_face known_embeddings get_user),
      "Successfully detected and processed " ++ toString detected_faces.length
        ++ " face(s)"⟩

/-- An attendance record (attendance.py lines 42-48, timestamp omitted: it is
produced by the persistence collaborator). -/
structure AttendanceRecord where
  user_id : String
  name : String
  status : String
  confidence : ℝ

/-- Response of /attendance/mark (attendance.py lines 51-55). -/
structure AttendanceResponse where
  success : Bool
  records : List AttendanceRecord
  message : String

/-- process_face of mark_attendance (attendance.py lines 110-165) at one state
of the shared processed_users set: returns the record (None when unmatched,
when the user is unknown, or when the identity was already processed) and the
new state of the set. -/
def att_process_face (known_embeddings : List (String × List ℝ))
    (get_user : String → Option String) (processed_users : List String)
    (face : Face) : Option AttendanceRecord × List String :=
  match face.embedding with
  | none => (none, processed_users)
  | some embedding =>
    if 0 < known_embeddings.length then
      match match_embedding routeMatcher embedding known_embeddings (some (3 / 5)) with
      | some (user_id, similarity) =>
        if user_id ∈ processed_users then (none, processed_users)
        else
          match get_user user_id with
          | some nm =>
            (some ⟨user_id, nm, "present", similarity⟩, user_id :: processed_users)
          | none => (none, processed_users)
      | none => (none, processed_users)
    else (none, processed_users)

/-- The gather of mark_attendance (attendance.py line 168), with the shared
processed_users set threaded through the faces in submission order: one
optional record per face. -/
def att_run (known_embeddings : List (String × List ℝ))
    (get_user : String → Option String) :
    List Face → List String → List (Option AttendanceRecord)
  | [], _ => []
  | face :: rest, processed_users =>
    let step := att_process_face known_embeddings get_user processed_users face
    step.1 :: att_run known_embeddings get_user rest step.2

/-- mark_attendance (attendance.py lines 58-175) after decoding and detection:
zero faces is a success with an empty record list; otherwise the gathered
per-face results with the None entries filtered out. -/
def mark_attendance (known_embeddings : List (String × List ℝ))
    (get_user : String → Option String) (detected_faces : List Face) :
    AttendanceResponse :=
  if detected_faces.length = 0 then
    ⟨true, [], "No faces detected in the image"⟩
  else
    let records := (att_run known_embeddings get_user detected_faces []).filterMap id
    ⟨true, records,
      "Attendance marked for " ++ toString records.length ++ " person(s)"⟩

/-- Per-image result of the bulk route (recognize.py lines 396-401), for an
image that decoded successfully. -/
structure BulkImageResult where
  success : Bool
  detected_faces : Nat
  faces : List FaceRecognition

/-- Response of /recognize-bulk (recognize.py lines 421-429). -/
structure BulkResponse where
  success : Bool
  total_images : Nat
  total_faces_detected : Nat
  results : List BulkImageResult

/-- process_face of recognize_bulk (recognize.py lines 340-391): identical
matching logic to the single-image process_face, returning the same fields. -/
def bulk_process_face (known_embeddings : List (String × List ℝ))
    (get_user : String → Option String) (face : Face) : FaceRecognition :=
  process_face known_embeddings get_user face

/-- process_image of recognize_bulk (recognize.py lines 313-401) on an image
that decoded into its list of detected faces: gather over the faces. -/
def bulk_process_image (known_embeddings : List (String × List ℝ))
    (get_user : String → Option String) (detected_faces : List Face) :
    BulkImageResult :=
  ⟨true, detected_faces.length,
    detected_faces.map (bulk_process_face known_embeddings get_user)⟩

/-- recognize_bulk (recognize.py lines 271-429) on decoded images: the gallery
snapshot known_embeddings is fetched once for the whole request (lines
304-310) and shared by every image; one process_image pass per image (line
412), gathered in submission order. -/
def recognize_bulk (known_embeddings : List (String × List ℝ))
    (get_user : String → Option String) (images : List (List Face)) :
    BulkResponse :=
  let results := images.map (bulk_process_image known_embeddings get_user)
  ⟨true, images.length, (results.map (fun r => r.detected_faces)).sum, results⟩

end

/-! ### Basic facts about the scorer -/

theorem sumSq_nonneg (a : List ℝ) : 0 ≤ sumSq a := by
  apply List.sum_nonneg
  intro x hx
  rcases List.mem_map.mp hx with ⟨y, -, rfl⟩
  exact mul_self_nonneg y

theorem linalg_norm_nonneg (a : List ℝ) : 0 ≤ linalg_norm a :=
  Real.sqrt_nonneg _

theorem sumSq_eq_zero_iff (a : List ℝ) : sumSq a = 0 ↔ ∀ x ∈ a, x = 0 := by
  induction a with
  | nil => simp [sumSq]
  | cons x xs ih =>
    have hx : (0:ℝ) ≤ x * x := mul_self_nonneg x
    have hs : (0:ℝ) ≤ sumSq xs := sumSq_nonneg xs
    have hcons : sumSq (x :: xs) = x * x + sumSq xs := by
      simp [sumSq]
    rw [hcons]
    rw [add_eq_zero_iff_of_nonneg hx hs]
    rw [mul_self_eq_zero, ih]
    constructor
    · rintro ⟨h1, h2⟩ y hy
      rcases List.mem_cons.mp hy with rfl | hy
      · exact h1
      · exact h2 y hy
    · intro h
      exact ⟨h x (List.mem_cons_self x xs), fun y hy => h y (List.mem_cons_of_mem x hy)⟩

theorem linalg_norm_eq_zero_iff (a : List ℝ) :
    linalg_norm a = 0 ↔ ∀ x ∈ a, x = 0 := by
  unfold linalg_norm
  rw [Real.sqrt_eq_zero (sumSq_nonneg a), sumSq_eq_zero_iff]

/-- Evaluate the norm at a vector whose sum of squares is a perfect square. -/
theorem linalg_norm_eval {a : List ℝ} {c : ℝ} (hc : 0 ≤ c) (h : sumSq a = c ^ 2) :
    linalg_norm a = c := by
  unfold linalg_norm
  rw [h, Real.sqrt_sq hc]

/-- C5: for every pair of vectors, if either has zero Euclidean norm then
compute_similarity returns exactly 0 (totally, with no error); otherwise it
returns the dot product divided by the product of the norms.  The final
conjunct identifies zero norm with the all-zero vector, so the policy covers
exactly the corrupt or all-zero stored embeddings. -/
theorem c5_zero_norm_policy (a b : List ℝ) :
    (linalg_norm a = 0 ∨ linalg_norm b = 0 → compute_similarity a b = 0)
    ∧ (linalg_norm a ≠ 0 → linalg_norm b ≠ 0 →
        compute_similarity a b = np_dot a b / (linalg_norm a * linalg_norm b))
    ∧ (linalg_norm a = 0 ↔ ∀ x ∈ a, x = 0) := by
  refine ⟨fun h => ?_, fun ha hb => ?_, linalg_norm_eq_zero_iff a⟩
  · simp only [compute_similarity]
    rw [if_pos h]
  · simp only [compute_similarity]
    rw [if_neg]
    push_neg
    exact ⟨ha, hb⟩

/-- C5 witness: a concrete zero-norm vector scores 0 against anything, and a
concrete pair of nonzero-norm vectors takes the cosine branch. -/
theorem c5_zero_norm_policy_witness :
    compute_similarity [(0:ℝ), 0] [(1:ℝ), 0] = 0
    ∧ compute_similarity [(4:ℝ), 3] [(1:ℝ), 0]
        = np_dot [(4:ℝ), 3] [(1:ℝ), 0]
          / (linalg_norm [(4:ℝ), 3] * linalg_norm [(1:ℝ), 0]) := by
  have h00 : linalg_norm [(0:ℝ), 0] = 0 :=
    linalg_norm_eval le_rfl (by norm_num [sumSq])
  have h43 : linalg_norm [(4:ℝ), 3] = 5 :=
    linalg_norm_eval (by norm_num) (by norm_num [sumSq])
  have h10 : linalg_norm [(1:ℝ), 0] = 1 :=
    linalg_norm_eval (by norm_num) (by norm_num [sumSq])
  exact ⟨(c5_zero_norm_policy _ _).1 (Or.inl h00),
    (c5_zero_norm_policy _ _).2.1 (by rw [h43]; norm_num) (by rw [h10]; norm_num)⟩

/-! ### C10: normalize_embedding -/

theorem sumSq_map_div (a : List ℝ) (c : ℝ) :
    sumSq (a.map (fun x => x / c)) = sumSq a / c ^ 2 := by
  induction a with
  | nil => simp [sumSq]
  | cons x xs ih =>
    have h1 : sumSq ((x :: xs).map (fun x => x / c))
        = (x / c) * (x / c) + sumSq (xs.map (fun x => x / c)) := by
      simp [sumSq]
    have h2 : sumSq (x :: xs) = x * x + sumSq xs := by
      simp [sumSq]
    rw [h1, h2, ih]
    ring

/-- C10: normalize_embedding returns the input divided by its Euclidean norm
whenever the norm is nonzero, and the result then has unit norm; for a
zero-norm input it returns the input unchanged, so the division branch is
never taken on a zero norm and the function is total. -/
theorem c10_normalize_embedding_total (e : List ℝ) :
    (linalg_norm e = 0 → normalize_embedding e = e)
    ∧ (linalg_norm e ≠ 0 →
        normalize_embedding e = e.map (fun x => x / linalg_norm e)
          ∧ linalg_norm (normalize_embedding e) = 1) := by
  constructor
  · intro h
    simp only [normalize_embedding]
    rw [if_pos h]
  · intro h
    have heq : normalize_embedding e = e.map (fun x => x / linalg_norm e) := by
      simp only [normalize_embedding]
      rw [if_neg h]
    refine ⟨heq, ?_⟩
    have hpos : 0 < linalg_norm e := lt_of_le_of_ne (linalg_norm_nonneg e) (Ne.symm h)
    rw [heq]
    unfold linalg_norm
    rw [sumSq_map_div]
    rw [Real.sqrt_div (sumSq_nonneg e)]
    rw [Real.sqrt_sq (Real.sqrt_nonneg _)]
    unfold linalg_norm at h
    exact div_self h

/-- C10 witness: the concrete vector (3, 4) has norm 5, is rescaled entrywise
by 1/5, and the result has unit norm. -/
theorem c10_normalize_embedding_total_witness :
    normalize_embedding [(3:ℝ), 4] = [3 / 5, 4 / 5]
    ∧ linalg_norm (normalize_embedding [(3:ℝ), 4]) = 1 := by
  have h34 : linalg_norm [(3:ℝ), 4] = 5 :=
    linalg_norm_eval (by norm_num) (by norm_num [sumSq])
  have hne : linalg_norm [(3:ℝ), 4] ≠ 0 := by rw [h34]; norm_num
  obtain ⟨heq, hunit⟩ := (c10_normalize_embedding_total [(3:ℝ), 4]).2 hne
  refine ⟨?_, hunit⟩
  rw [heq, h34]
  norm_num

/-! ### Concrete score evaluations shared by witnesses and counterexamples -/

theorem norm_unit : linalg_norm [(1:ℝ), 0] = 1 :=
  linalg_norm_eval (by norm_num) (by norm_num [sumSq])

theorem sim_unit_self : compute_similarity [(1:ℝ), 0] [(1:ℝ), 0] = 1 := by
  simp only [compute_similarity]
  rw [norm_unit]
  rw [if_neg (by norm_num)]
  norm_num [np_dot]

theorem sim_43_unit : compute_similarity [(4:ℝ), 3] [(1:ℝ), 0] = 4 / 5 := by
  have h43 : linalg_norm [(4:ℝ), 3] = 5 :=
    linalg_norm_eval (by norm_num) (by norm_num [sumSq])
  simp only [compute_similarity]
  rw [h43, norm_unit]
  rw [if_neg (by norm_num)]
  norm_num [np_dot]

/-! ### The best-match scan (C3, C4) -/

/-- If no remaining gallery entry scores strictly above the running best score,
the scan returns the accumulated best match unchanged. -/
theorem matchLoop_of_all_le (q : List ℝ) :
    ∀ (known : List (String × List ℝ)) (acc : Option (String × ℝ)) (b : ℝ),
      (∀ p ∈ known, compute_similarity q p.2 ≤ b) → matchLoop q known acc b = acc
  | [], _, _, _ => rfl
  | (u, e) :: rest, acc, b, h => by
    have hle : compute_similarity q e ≤ b := h (u, e) (List.mem_cons_self _ _)
    simp only [matchLoop]
    rw [if_neg (not_lt.mpr hle)]
    exact matchLoop_of_all_le q rest acc b (fun p hp => h p (List.mem_cons_of_mem _ hp))

/-- If an entry beats the running best score, every earlier entry scores
strictly below it and every later entry at most it, the scan returns exactly
that entry with its score, whatever the accumulator. -/
theorem matchLoop_first_beats (q : List ℝ) (u : String) (e : List ℝ)
    (post : List (String × List ℝ))
    (hpost : ∀ p ∈ post, compute_similarity q p.2 ≤ compute_similarity q e) :
    ∀ (pre : List (String × List ℝ)) (acc : Option (String × ℝ)) (b : ℝ),
      b < compute_similarity q e →
      (∀ p ∈ pre, compute_similarity q p.2 < compute_similarity q e) →
      matchLoop q (pre ++ (u, e) :: post) acc b = some (u, compute_similarity q e)
  | [], acc, b, hb, _ => by
    simp only [List.nil_append, matchLoop]
    rw [if_pos hb]
    exact matchLoop_of_all_le q post _ _ hpost
  | (u0, e0) :: pre, acc, b, hb, hpre => by
    have h0 : compute_similarity q e0 < compute_similarity q e :=
      hpre (u0, e0) (List.mem_cons_self _ _)
    have hpre2 : ∀ p ∈ pre, compute_similarity q p.2 < compute_similarity q e :=
      fun p hp => hpre p (List.mem_cons_of_mem _ hp)
    simp only [List.cons_append, matchLoop]
    by_cases hc : compute_similarity q e0 > b
    · rw [if_pos hc]
      exact matchLoop_first_beats q u e post hpost pre _ _ h0 hpre2
    · rw [if_neg hc]
      exact matchLoop_first_beats q u e post hpost pre _ _ hb hpre2

/-- C3: match_embedding initializes its running best to the threshold (the
explicit one when given, else the configured one), so whenever every gallery
entry scores at most the threshold — equality included — no candidate is ever
adopted and the result is None; in particular the empty gallery yields None
for every threshold argument. -/
theorem c3_no_match_at_or_below_threshold (m : FaceMatcher) (q : List ℝ) (t : ℝ)
    (known : List (String × List ℝ))
    (h : ∀ p ∈ known, compute_similarity q p.2 ≤ t) :
    match_embedding m q known (some t) = none
    ∧ ∀ t2 : Option ℝ, match_embedding m q [] t2 = none := by
  constructor
  · unfold match_embedding
    rw [Option.getD_some]
    exact matchLoop_of_all_le q known none t h
  · intro t2
    rfl

/-- C3 witness: a gallery entry scoring exactly 1 against the query does not
match at threshold 1 (the strict-inequality boundary), so the result is None. -/
theorem c3_no_match_at_or_below_threshold_witness :
    (∀ p ∈ [("u", [(1:ℝ), 0])], compute_similarity [(1:ℝ), 0] p.2 ≤ 1)
    ∧ match_embedding ⟨3 / 5⟩ [(1:ℝ), 0] [("u", [(1:ℝ), 0])] (some 1) = none := by
  have h : ∀ p ∈ [("u", [(1:ℝ), 0])], compute_similarity [(1:ℝ), 0] p.2 ≤ 1 := by
    intro p hp
    rcases List.mem_singleton.mp hp with rfl
    rw [sim_unit_self]
  exact ⟨h, (c3_no_match_at_or_below_threshold ⟨3 / 5⟩ [(1:ℝ), 0] 1 _ h).1⟩

/-- C4: an entry replaces the running best only when its score strictly
exceeds it, so the entry that wins is the one that beats the threshold, whose
predecessors in gallery order all score strictly below it and whose successors
score at most it — in a tie at the maximum the first-seen entry wins.  The
model is a pure function of its inputs, so the winner is identical across
repeated runs on the same inputs. -/
theorem c4_tie_keeps_first_seen (m : FaceMatcher) (q : List ℝ) (t : ℝ)
    (u : String) (e : List ℝ) (pre post : List (String × List ℝ))
    (hpre : ∀ p ∈ pre, compute_similarity q p.2 < compute_similarity q e)
    (hpost : ∀ p ∈ post, compute_similarity q p.2 ≤ compute_similarity q e)
    (ht : t < compute_similarity q e) :
    match_embedding m q (pre ++ (u, e) :: post) (some t)
      = some (u, compute_similarity q e) := by
  unfold match_embedding
  rw [Option.getD_some]
  exact matchLoop_first_beats q u e post hpost pre none t ht hpre

/-- C4 witness: two gallery entries tied at score 1 for the query; the
first-seen entry wins at threshold 1/2. -/
theorem c4_tie_keeps_first_seen_witness :
    (∀ p ∈ [("b", [(1:ℝ), 0])],
      compute_similarity [(1:ℝ), 0] p.2 ≤ compute_similarity [(1:ℝ), 0] [(1:ℝ), 0])
    ∧ (1:ℝ) / 2 < compute_similarity [(1:ℝ), 0] [(1:ℝ), 0]
    ∧ match_embedding ⟨3 / 5⟩ [(1:ℝ), 0]
        [("a", [(1:ℝ), 0]), ("b", [(1:ℝ), 0])] (some (1 / 2))
      = some ("a", compute_similarity [(1:ℝ), 0] [(1:ℝ), 0]) := by
  have hpost : ∀ p ∈ [("b", [(1:ℝ), 0])],
      compute_similarity [(1:ℝ), 0] p.2 ≤ compute_similarity [(1:ℝ), 0] [(1:ℝ), 0] := by
    intro p hp
    rcases List.mem_singleton.mp hp with rfl
    exact le_rfl
  have ht : (1:ℝ) / 2 < compute_similarity [(1:ℝ), 0] [(1:ℝ), 0] := by
    rw [sim_unit_self]
    norm_num
  exact ⟨hpost, ht,
    c4_tie_keeps_first_seen ⟨3 / 5⟩ [(1:ℝ), 0] (1 / 2) "a" [(1:ℝ), 0]
      [] [("b", [(1:ℝ), 0])] (by intro p hp; cases hp) hpost ht⟩

/-! ### C6: get_top_matches -/

section
open Classical

/-- C6: get_top_matches is the k-truncation of a list that permutes the fully
scored gallery, is sorted by descending similarity, and keeps every
equal-score pair in its original gallery order (stability); consequently the
returned sequence has at most k elements and is itself sorted descending. -/
theorem c6_top_matches_sorted_stable (q : List ℝ)
    (db : List (String × List ℝ)) (k : Nat) :
    ∃ s : List (String × ℝ),
      get_top_matches q db k = s.take k
      ∧ s.Perm (db.map (fun p => (p.1, compute_similarity q p.2)))
      ∧ s.Pairwise (fun a b => b.2 ≤ a.2)
      ∧ (∀ a b : String × ℝ,
          [a, b].Sublist (db.map (fun p => (p.1, compute_similarity q p.2))) →
          a.2 = b.2 → [a, b].Sublist s)
      ∧ (get_top_matches q db k).length ≤ k
      ∧ (get_top_matches q db k).Pairwise (fun a b => b.2 ≤ a.2) := by
  have htrans : ∀ a b c : String × ℝ,
      (fun a b : String × ℝ => decide (b.2 ≤ a.2)) a b →
      (fun a b : String × ℝ => decide (b.2 ≤ a.2)) b c →
      (fun a b : String × ℝ => decide (b.2 ≤ a.2)) a c := by
    intro a b c h1 h2
    simp only [decide_eq_true_eq] at h1 h2 ⊢
    exact le_trans h2 h1
  have htotal : ∀ a b : String × ℝ,
      (fun a b : String × ℝ => decide (b.2 ≤ a.2)) a b
        || (fun a b : String × ℝ => decide (b.2 ≤ a.2)) b a := by
    intro a b
    simp only [Bool.or_eq_true, decide_eq_true_eq]
    exact le_total b.2 a.2
  have hsorted := List.sorted_mergeSort htrans htotal
    (db.map (fun p => (p.1, compute_similarity q p.2)))
  have hGT : get_top_matches q db k
      = ((db.map (fun p => (p.1, compute_similarity q p.2))).mergeSort
          (fun a b => decide (b.2 ≤ a.2))).take k := rfl
  refine ⟨(db.map (fun p => (p.1, compute_similarity q p.2))).mergeSort
    (fun a b => decide (b.2 ≤ a.2)), hGT, List.mergeSort_perm _ _, ?_, ?_, ?_, ?_⟩
  · exact hsorted.imp (fun h => by simpa using h)
  · intro a b hsub heq
    apply List.sublist_mergeSort htrans htotal ?_ hsub
    apply List.Pairwise.cons
    · intro x hx
      rcases List.mem_singleton.mp hx with rfl
      simp [heq]
    · simp
  · rw [hGT, List.length_take]
    exact min_le_left _ _
  · rw [hGT]
    exact ((hsorted.imp (fun h => by simpa using h)).sublist (List.take_sublist _ _))

end

/-! ### C7: the byte serialization round-trip -/

/-- Reassembling the four little-endian bytes of a 32-bit word recovers it. -/
theorem word_le_roundtrip (w : Nat) (h : w < 4294967296) :
    w % 256 + 256 * (w / 256 % 256) + 65536 * (w / 65536 % 256)
      + 16777216 * (w / 16777216 % 256) = w := by
  omega

/-- C7: for every vector of float32 values (represented by their 32-bit
patterns, which covers 0.0 and every negative value), encoding to bytes and
decoding reproduces the vector exactly, bit for bit; the encoding is raw
4-byte little-endian words with total length 4 bytes per element and no
header. -/
theorem c7_bytes_roundtrip (v : List Nat) (h : ∀ w ∈ v, w < 4294967296) :
    bytes_to_embedding (embedding_to_bytes v) = v
    ∧ (embedding_to_bytes v).length = 4 * v.length := by
  revert h
  induction v with
  | nil => exact fun _ => ⟨rfl, rfl⟩
  | cons w ws ih =>
    intro h
    have hw : w < 4294967296 := h w (List.mem_cons_self _ _)
    have ih2 := ih (fun x hx => h x (List.mem_cons_of_mem _ hx))
    constructor
    · show bytes_to_embedding (word_to_le_bytes w ++ embedding_to_bytes ws) = w :: ws
      simp only [word_to_le_bytes, List.cons_append, List.nil_append]
      rw [bytes_to_embedding]
      rw [ih2.1]
      congr 1
      exact word_le_roundtrip w hw
    · show (word_to_le_bytes w ++ embedding_to_bytes ws).length = 4 * (w :: ws).length
      rw [List.length_append, ih2.2]
      simp [word_to_le_bytes]
      omega

/-- C7 witness: the bit patterns of 0.0f, 1.0f (0x3F800000), -1.0f
(0xBF800000) and the all-ones word round-trip through the byte encoding, and
the encoding is 4 bytes per element. -/
theorem c7_bytes_roundtrip_witness :
    (∀ w ∈ [0, 1065353216, 3212836864, 4294967295], w < 4294967296)
    ∧ bytes_to_embedding
        (embedding_to_bytes [0, 1065353216, 3212836864, 4294967295])
      = [0, 1065353216, 3212836864, 4294967295]
    ∧ (embedding_to_bytes [0, 1065353216, 3212836864, 4294967295]).length = 16 := by
  have h : ∀ w ∈ [0, 1065353216, 3212836864, 4294967295], w < 4294967296 := by
    decide
  have hrt := c7_bytes_roundtrip [0, 1065353216, 3212836864, 4294967295] h
  exact ⟨h, hrt.1, by rw [hrt.2]; rfl⟩

/-! ### Concrete batch inputs shared by the pipeline witnesses and
counterexamples: a one-identity gallery and two faces that both best-match it,
the first at score 4/5, the second at score 1, against threshold 3/5. -/

noncomputable section
open Classical

/-- A gallery holding the single enrolled identity u with embedding (1, 0). -/
def galleryU : List (String × List ℝ) := [("u", [1, 0])]

/-- The user store: identity u exists and is named U. -/
def lookupU : String → Option String := fun user_id =>
  if user_id = "u" then some "U" else none

/-- A face whose embedding (4, 3) scores 4/5 against the gallery entry. -/
def faceA : Face := ⟨some [4, 3], [0, 0, 10, 10], 9 / 10⟩

/-- A face whose embedding (1, 0) scores 1 against the gallery entry. -/
def faceB : Face := ⟨some [1, 0], [20, 0, 30, 10], 9 / 10⟩

theorem match_embedding_A :
    match_embedding routeMatcher [(4:ℝ), 3] galleryU (some (3 / 5))
      = some ("u", 4 / 5) := by
  unfold match_embedding galleryU
  rw [Option.getD_some]
  simp only [matchLoop, sim_43_unit]
  rw [if_pos (show (3:ℝ) / 5 < 4 / 5 by norm_num)]

theorem match_embedding_B :
    match_embedding routeMatcher [(1:ℝ), 0] galleryU (some (3 / 5))
      = some ("u", 1) := by
  unfold match_embedding galleryU
  rw [Option.getD_some]
  simp only [matchLoop, sim_unit_self]
  rw [if_pos (show (3:ℝ) / 5 < 1 by norm_num)]

theorem process_face_A :
    process_face galleryU lookupU faceA
      = ⟨some "u", "U", 9 / 10, 4 / 5, [0, 0, 10, 10]⟩ := by
  simp only [process_face, faceA]
  rw [if_pos (show 0 < galleryU.length by simp [galleryU])]
  rw [match_embedding_A]
  simp [lookupU]

theorem process_face_B :
    process_face galleryU lookupU faceB
      = ⟨some "u", "U", 9 / 10, 1, [20, 0, 30, 10]⟩ := by
  simp only [process_face, faceB]
  rw [if_pos (show 0 < galleryU.length by simp [galleryU])]
  rw [match_embedding_B]
  simp [lookupU]

end

/-! ### C2 and C9: batch shape of the pipelines -/

/-- The gathered attendance results keep one entry per face whatever the
state of the processed set. -/
theorem att_run_length (g : List (String × List ℝ)) (lk : String → Option String) :
    ∀ (faces : List Face) (processed : List String),
      (att_run g lk faces processed).length = faces.length
  | [], _ => rfl
  | _ :: rest, processed => by
    simp only [att_run, List.length_cons]
    rw [att_run_length g lk rest]

/-- C2: the recognition batch yields exactly one outcome per input face — the
outcome list is the order-preserving map of the per-face processing over the
input, its length equals the input length, and the i-th outcome is computed
from the i-th face (the positional faceIndex), independently of task
completion order (asyncio.gather returns results in submission order); the
attendance batch's gathered results likewise have one entry per face. -/
theorem c2_one_outcome_per_face_in_order (g : List (String × List ℝ))
    (lk : String → Option String) (faces : List Face) :
    (recognize_faces g lk faces).recognitions = faces.map (process_face g lk)
    ∧ (recognize_faces g lk faces).recognitions.length = faces.length
    ∧ (∀ i (hi : i < faces.length)
        (hi2 : i < (recognize_faces g lk faces).recognitions.length),
        (recognize_faces g lk faces).recognitions.get ⟨i, hi2⟩
          = process_face g lk (faces.get ⟨i, hi⟩))
    ∧ (att_run g lk faces []).length = faces.length := by
  have hmap : (recognize_faces g lk faces).recognitions
      = faces.map (process_face g lk) := by
    unfold recognize_faces
    split
    · next hlen =>
      rw [List.length_eq_zero.mp hlen]
      rfl
    · rfl
  refine ⟨hmap, by rw [hmap, List.length_map], ?_, att_run_length g lk faces []⟩
  intro i hi hi2
  simp only [hmap, List.get_eq_getElem, List.getElem_map]

/-- C9: zero detected faces is not an error: both the recognition batch and
the attendance batch return a success status together with an empty outcome
list. -/
theorem c9_zero_faces_success (g : List (String × List ℝ))
    (lk : String → Option String) :
    recognize_faces g lk [] = ⟨true, 0, [], "No faces detected in the image"⟩
    ∧ mark_attendance g lk [] = ⟨true, [], "No faces detected in the image"⟩ :=
  ⟨rfl, rfl⟩

/-! ### C1: what duplicate suppression the code actually performs -/

section
open Classical

/-- Processing one attendance face either leaves the processed set unchanged
and yields no record, or yields a record for an identity not yet processed
and adds that identity to the set. -/
theorem att_process_face_cases (g : List (String × List ℝ))
    (lk : String → Option String) (processed : List String) (face : Face) :
    att_process_face g lk processed face = (none, processed)
    ∨ ∃ r : AttendanceRecord,
        att_process_face g lk processed face = (some r, r.user_id :: processed)
        ∧ r.user_id ∉ processed := by
  cases hface : face.embedding with
  | none => exact Or.inl (by simp [att_process_face, hface])
  | some emb =>
    by_cases hg : 0 < g.length
    · cases hm : match_embedding routeMatcher emb g (some (3 / 5)) with
      | none => exact Or.inl (by simp [att_process_face, hface, hm, hg])
      | some us =>
        obtain ⟨u, s⟩ := us
        by_cases hp : u ∈ processed
        · exact Or.inl (by simp [att_process_face, hface, hm, hg, hp])
        · cases hu : lk u with
          | none => exact Or.inl (by simp [att_process_face, hface, hm, hg, hp, hu])
          | some nm =>
            exact Or.inr ⟨⟨u, nm, "present", s⟩,
              by simp [att_process_face, hface, hm, hg, hp, hu], hp⟩
    · exact Or.inl (by simp [att_process_face, hface, hg])

/-- Invariant of the attendance gather: the records produced carry pairwise
distinct identities, none of which was in the processed set at entry. -/
theorem att_run_nodup (g : List (String × List ℝ)) (lk : String → Option String) :
    ∀ (faces : List Face) (processed : List String),
      (((att_run g lk faces processed).filterMap id).map
          (fun r => r.user_id)).Nodup
      ∧ ∀ r ∈ (att_run g lk faces processed).filterMap id, r.user_id ∉ processed
  | [], processed => by simp [att_run]
  | face :: rest, processed => by
    rcases att_process_face_cases g lk processed face with h | ⟨r, h, hr⟩
    · have ih := att_run_nodup g lk rest processed
      simp only [att_run, h]
      simpa using ih
    · have ih := att_run_nodup g lk rest (r.user_id :: processed)
      simp only [att_run, h]
      simp only [List.filterMap_cons, id_eq, List.map_cons, List.nodup_cons]
      refine ⟨⟨?_, ih.1⟩, ?_⟩
      · intro hmem
        rcases List.mem_map.mp hmem with ⟨r2, hr2, he⟩
        exact ih.2 r2 hr2 (he ▸ List.mem_cons_self _ _)
      · intro r2 hr2
        rcases List.mem_cons.mp hr2 with rfl | hr2
        · exact hr
        · exact fun hmem => ih.2 r2 hr2 (List.mem_cons_of_mem _ hmem)

/-- C1 (amended): for every batch, mark_attendance produces at most one
attendance record per distinct identity — the identities of the returned
records are pairwise distinct.  (The suppressed duplicates yield no record at
all, and the record kept for an identity is the first-processed matching
face's, not the highest-scoring one: see the counterexample.) -/
theorem c1_at_most_one_record_per_identity (g : List (String × List ℝ))
    (lk : String → Option String) (faces : List Face) :
    ((mark_attendance g lk faces).records.map (fun r => r.user_id)).Nodup := by
  unfold mark_attendance
  split
  · simp
  · exact (att_run_nodup g lk faces []).1

theorem att_face_A :
    att_process_face galleryU lookupU [] faceA
      = (some ⟨"u", "U", "present", 4 / 5⟩, ["u"]) := by
  simp only [att_process_face, faceA]
  rw [if_pos (show 0 < galleryU.length by simp [galleryU])]
  rw [match_embedding_A]
  simp [lookupU]

theorem att_face_B :
    att_process_face galleryU lookupU ["u"] faceB = (none, ["u"]) := by
  simp only [att_process_face, faceB]
  rw [if_pos (show 0 < galleryU.length by simp [galleryU])]
  rw [match_embedding_B]
  simp

/-- C1 counterexample: in the batch (faceA, faceB), both best-matching
identity u at scores 4/5 and 1, the recognition pipeline returns BOTH
outcomes carrying identity u — no grouping, no rewriting of the loser to
a null identity, two accepted outcomes for one identity — and the attendance
pipeline keeps the FIRST-processed record, at score 4/5, not the
highest-scoring one at score 1, dropping the other face's record entirely. -/
theorem c1_dedup_counterexample :
    (recognize_faces galleryU lookupU [faceA, faceB]).recognitions.map
        (fun r => r.user_id) = [some "u", some "u"]
    ∧ (mark_attendance galleryU lookupU [faceA, faceB]).records.map
        (fun r => (r.user_id, r.confidence)) = [("u", 4 / 5)] := by
  constructor
  · unfold recognize_faces
    rw [if_neg (by simp)]
    simp [process_face_A, process_face_B]
  · unfold mark_attendance
    rw [if_neg (by simp)]
    simp only [att_run, att_face_A]
    simp only [att_face_B]
    simp

end

/-! ### C8: the bulk route -/

/-- C8 (amended): recognize_bulk runs one processing pass per image over the
single gallery snapshot fetched once for the whole request, each image's
result depending only on that image's faces (results are the order-preserving
map of per-image processing); no per-identity dedup is applied anywhere in
the bulk path. -/
theorem c8_one_pass_per_image_shared_snapshot (g : List (String × List ℝ))
    (lk : String → Option String) (images : List (List Face)) :
    (recognize_bulk g lk images).results = images.map (bulk_process_image g lk)
    ∧ (recognize_bulk g lk images).results.length = images.length
    ∧ ∀ i (hi : i < images.length)
        (hi2 : i < (recognize_bulk g lk images).results.length),
        (recognize_bulk g lk images).results.get ⟨i, hi2⟩
          = bulk_process_image g lk (images.get ⟨i, hi⟩) := by
  refine ⟨rfl, by simp [recognize_bulk], ?_⟩
  intro i hi hi2
  simp only [recognize_bulk, List.get_eq_getElem, List.getElem_map]

/-- C8 counterexample: in a bulk request with one image containing faceA and
faceB (both best-matching identity u above threshold), the identity u is
accepted TWICE within that single image — there is no per-image dedup scope;
the second conjunct shows u is also accepted once per image across two
images of a request (no cross-image dedup either). -/
theorem c8_bulk_dedup_counterexample :
    (recognize_bulk galleryU lookupU [[faceA, faceB]]).results.map
        (fun r => r.faces.map (fun f => f.user_id)) = [[some "u", some "u"]]
    ∧ (recognize_bulk galleryU lookupU [[faceA], [faceA]]).results.map
        (fun r => r.faces.map (fun f => f.user_id)) = [[some "u"], [some "u"]] := by
  constructor <;>
    simp [recognize_bulk, bulk_process_image, bulk_process_face,
      process_face_A, process_face_B]

end VisionID
